import Mathlib

/-!
Verification development for the Outlook webhook email-routing service.

The Python sources under `src/` are shallowly embedded below:
pure functions become Lean functions, dict-shaped configuration objects
become structures holding exactly the keys the embedded code reads,
Python exceptions become `Option`/`Except` results, and the side effects
of the pipeline (collaborator calls, provider deletions/creations) are
reified as explicit lists of events returned alongside the computed value.
Machine reals never occur on the verified paths: the numeric filter
operators are exercised only on integers, so numbers are modelled as `Int`.
-/

/-- Model of a Python runtime value as it flows through the rule matcher
(`src/routing/rule_matcher.py`): strings, numbers, booleans, lists and
`None`.  The filter configuration and email fields only ever produce these
shapes.  Numbers are modelled as `Int`: every numeric comparison the
claims exercise is on integers, where Python float arithmetic is exact. -/
inductive PyValue where
  | str (s : String)
  | num (n : Int)
  | bool (b : Bool)
  | list (l : List PyValue)
  | none

/-- Python truthiness (`bool(x)`) for the modelled value shapes. -/
def pyTruthy : PyValue → Bool
  | .str s => s != ""
  | .num n => n != 0
  | .bool b => b
  | .list l => !l.isEmpty
  | .none => false

/-- Python `==` on the non-list shapes.  `True == 1` holds in Python
because `bool` is an `int` subclass; mismatched shapes compare unequal
without raising. -/
def pyEqScalar : PyValue → PyValue → Bool
  | .str a, .str b => a == b
  | .num a, .num b => a == b
  | .bool a, .bool b => a == b
  | .bool x, .num n => (if x then (1 : Int) else 0) == n
  | .num n, .bool x => n == (if x then (1 : Int) else 0)
  | .none, .none => true
  | _, _ => false

/-- Python `==` on the modelled shapes.  List equality compares elements
one level deep with `pyEqScalar`: the configuration values this service
reads (recipient lists, attachment-name lists, operator comparison lists)
never nest a list inside a list. -/
def pyEq (a b : PyValue) : Bool :=
  match a, b with
  | .list x, .list y => x.length == y.length && (x.zip y).all fun p => pyEqScalar p.1 p.2
  | x, y => pyEqScalar x y

/-- Lowercase a string, modelling Python `str.lower()` on the ASCII
configuration and header strings this service handles. -/
def pyLower (s : String) : String := String.mk (s.toList.map Char.toLower)

/-- Python `str.startswith`. -/
def pyStartsWith (s pre : String) : Bool := pre.toList.isPrefixOf s.toList

/-- Python `str.endswith`. -/
def pyEndsWith (s suf : String) : Bool := suf.toList.isSuffixOf s.toList

/-- Substring test: `needle in hay` for Python strings. -/
def strContainsSub (hay needle : String) : Bool :=
  go needle.toList hay.toList
where
  go (n : List Char) : List Char → Bool
    | [] => n.isPrefixOf []
    | c :: t => n.isPrefixOf (c :: t) || go n t

/-- Python `str(x)` for the modelled shapes (lists render with Python's
repr-style brackets; no claim stringifies a list). -/
def pyStr : PyValue → String
  | .str s => s
  | .num n => toString n
  | .bool b => if b then "True" else "False"
  | .list l => "[" ++ String.intercalate ", " (l.map pyStrItem) ++ "]"
  | .none => "None"
where
  pyStrItem : PyValue → String
    | .str s => "'" ++ s ++ "'"
    | .num n => toString n
    | .bool b => if b then "True" else "False"
    | .list _ => "[...]"
    | .none => "None"

/-- Model of Python `float(x)` returning `Option Int`: `none` models the
`ValueError`/`TypeError` that the evaluator's blanket `except` turns into
a non-match.  String parsing covers optionally signed decimal integers;
other strings raise in Python and are modelled as `none`. -/
def pyFloat : PyValue → Option Int
  | .num n => some n
  | .bool b => some (if b then 1 else 0)
  | .str s =>
    let core := fun (l : List Char) =>
      if l ≠ [] ∧ l.all Char.isDigit then
        some (l.foldl (fun acc c => acc * 10 + (c.toNat - '0'.toNat)) 0 : Int)
      else Option.none
    match s.toList with
    | '-' :: rest => (core rest).map (fun n => -n)
    | l => core l
  | _ => Option.none

/-! ### A small regular-expression engine

`RuleMatcher` calls `re.search` (`src/routing/rule_matcher.py`) on the
patterns stored in filter configurations.  The engine below models
Python `re.search` on the pattern fragment those filters use: literal
characters, the classes `\d` `\w` `\s`, the wildcard `.`, and the postfix
quantifiers `+` and `*`.  Patterns outside the fragment (groups,
alternation, anchors, a trailing backslash, a leading quantifier) parse to
`none`, which the callers treat the way they treat `re.error`. -/

/-- One atom of the modelled regex fragment. -/
inductive RAtom where
  | lit (c : Char)
  | digit
  | word
  | space
  | dot
deriving DecidableEq, Repr

/-- Quantifier attached to an atom. -/
inductive RQuant where
  | one
  | plus
  | star
deriving DecidableEq, Repr

/-- Whether a bare (unescaped) character is outside the modelled regex
fragment. -/
def unsupportedMeta (c : Char) : Bool :=
  c = '+' || c = '*' || c = '?' || c = '(' || c = ')' || c = '[' ||
  c = ']' || c = '|' || c = '^' || c = '$'

/-- Atom denoted by an escape sequence, `none` when outside the fragment. -/
def parseEsc (c : Char) : Option RAtom :=
  if c = 'd' then some .digit
  else if c = 'w' then some .word
  else if c = 's' then some .space
  else if c.isAlpha ∨ c.isDigit then Option.none
  else some (.lit c)

/-- Atom denoted by a bare character, `none` when outside the fragment. -/
def charAtom (c : Char) : Option RAtom :=
  if c = '.' then some .dot
  else if unsupportedMeta c then Option.none
  else if c = '\\' then Option.none
  else some (.lit c)

/-- Parse a pattern into a quantified-atom list; `none` models `re.error`
or a construct outside the modelled fragment. -/
def parsePat : List Char → Option (List (RAtom × RQuant))
  | [] => some []
  | '\\' :: [] => Option.none
  | '\\' :: e :: '+' :: rest =>
    (parseEsc e).bind fun a => (parsePat rest).map (fun t => (a, .plus) :: t)
  | '\\' :: e :: '*' :: rest =>
    (parseEsc e).bind fun a => (parsePat rest).map (fun t => (a, .star) :: t)
  | '\\' :: e :: rest =>
    (parseEsc e).bind fun a => (parsePat rest).map (fun t => (a, .one) :: t)
  | c :: '+' :: rest =>
    (charAtom c).bind fun a => (parsePat rest).map (fun t => (a, .plus) :: t)
  | c :: '*' :: rest =>
    (charAtom c).bind fun a => (parsePat rest).map (fun t => (a, .star) :: t)
  | c :: rest =>
    (charAtom c).bind fun a => (parsePat rest).map (fun t => (a, .one) :: t)

/-- Whether an atom matches one character, optionally case-insensitively
(modelling `re.IGNORECASE`). -/
def atomMatch (ci : Bool) : RAtom → Char → Bool
  | .lit c, x => if ci then c.toLower = x.toLower else c = x
  | .digit, x => x.isDigit
  | .word, x => x.isAlphanum || x = '_'
  | .space, x =>
    x = ' ' || x = '\t' || x = '\n' || x = '\r' || x = '\x0b' || x = '\x0c'
  | .dot, x => x ≠ '\n'

/-- Backtracking matcher for one start position.  The fuel argument is a
strict upper bound on the recursion depth (every step shrinks
`2 * items.length + s.length`), so the `0`-fuel clause is unreachable
from `reMatchAt`. -/
def reMatchFuel (ci : Bool) : Nat → List (RAtom × RQuant) → List Char → Bool
  | 0, _, _ => false
  | _ + 1, [], _ => true
  | f + 1, (a, .one) :: rest, s =>
    match s with
    | [] => false
    | c :: cs => atomMatch ci a c && reMatchFuel ci f rest cs
  | f + 1, (a, .plus) :: rest, s =>
    match s with
    | [] => false
    | c :: cs => atomMatch ci a c && reMatchFuel ci f ((a, .star) :: rest) cs
  | f + 1, (a, .star) :: rest, s =>
    reMatchFuel ci f rest s ||
      match s with
      | [] => false
      | c :: cs => atomMatch ci a c && reMatchFuel ci f ((a, .star) :: rest) cs

/-- Match the item list at the start of `s`. -/
def reMatchAt (ci : Bool) (items : List (RAtom × RQuant)) (s : List Char) : Bool :=
  reMatchFuel ci (2 * items.length + s.length + 1) items s

/-- Match the item list at some position of `s` (the existence semantics
of `re.search`). -/
def reSearchList (ci : Bool) (items : List (RAtom × RQuant)) : List Char → Bool
  | [] => reMatchAt ci items []
  | c :: cs => reMatchAt ci items (c :: cs) || reSearchList ci items cs

/-- Model of `bool(re.search(pattern, s, flags))`; `none` models
`re.error` (or a pattern outside the modelled fragment). -/
def reSearch (ci : Bool) (pattern s : String) : Option Bool :=
  (parsePat pattern.toList).map (fun items => reSearchList ci items s.toList)

/-! ### Data model

`EmailMetadata` (`src/models/email_metadata.py`) and `UtilityConfig`
(`src/models/utility_config.py`).  Dict-shaped configuration fields are
embedded as structures holding exactly the keys the routed code reads;
a key the code reads with a `.get` default is an `Option`. -/

/-- One entry of a recipient list; the code reads only `address` (and
`name` during enrichment). -/
structure Recipient where
  address : String
  name : String

/-- One entry of `attachment_metadata`; the code reads only `name`. -/
structure AttachmentMeta where
  name : String

/-- One entry of the lazily loaded `attachments` list; `hasContent`
models whether the dict carries a `content` key. -/
structure AttachmentFull where
  name : String
  hasContent : Bool

/-- The email fields read by the routing pipeline
(`src/models/email_metadata.py`). -/
structure EmailMetadata where
  message_id : String
  internet_message_id : String
  subject : String
  body_preview : String
  body_content : String
  from_address : String
  from_name : String
  to_recipients : List Recipient
  cc_recipients : List Recipient
  bcc_recipients : List Recipient
  has_attachments : Bool
  attachment_metadata : List AttachmentMeta
  attachments : List AttachmentFull
  mailbox : String
  folder : String

/-- The `direction` property: `sent` iff the folder is `Sent Items`. -/
def EmailMetadata.direction (e : EmailMetadata) : String :=
  if e.folder = "Sent Items" then "sent" else "received"

/-- The `attachments_loaded` property: vacuously true without
attachments, otherwise the first loaded attachment must carry content. -/
def EmailMetadata.attachments_loaded (e : EmailMetadata) : Bool :=
  if !e.has_attachments then true
  else
    match e.attachments with
    | [] => false
    | a :: _ => a.hasContent

/-- `contains`/`regex` keyword filters, the shape of the legacy `subject`
and `body` filter dicts. -/
structure KeywordFilters where
  contains : Option (List String)
  regex : Option String

/-- The legacy `sender` filter dict. -/
structure SenderFilters where
  exact : Option String
  in_list : Option (List String)
  contains : Option (List String)

/-- The legacy `receiver` filter dict. -/
structure ReceiverFilters where
  in_list : Option (List String)
  contains : Option (List String)

/-- The legacy `attachments` filter dict. -/
structure AttachmentFilters where
  required : Option Bool
  filename_contains : Option (List String)

/-- One condition of the advanced filter format; `negate` and
`case_sensitive` carry the code's `.get(..., False)` defaults, an absent
`value` key is `PyValue.none`. -/
structure Condition where
  field : Option String
  operator : Option String
  value : PyValue
  negate : Bool
  case_sensitive : Bool

/-- One condition group of the advanced filter format. -/
structure ConditionGroup where
  conditions : List Condition
  logic : Option String

/-- The `pre_filters` dict.  `condition_groups` is `some` exactly when
the key is present (the format dispatch in `_matches_utility` tests key
presence); the legacy sub-dicts are `none` when absent or empty, which
Python treats identically (both are falsy). -/
structure PreFilters where
  condition_groups : Option (List ConditionGroup)
  group_logic : Option String
  match_logic : Option String
  direction : Option String
  subject : Option KeywordFilters
  body : Option KeywordFilters
  sender : Option SenderFilters
  receiver : Option ReceiverFilters
  attachments : Option AttachmentFilters

/-- One entry of `subscriptions['mailboxes']`; `folders` defaults to
`['Inbox']` via `.get` when absent. -/
structure MailboxSub where
  address : String
  folders : Option (List String)

/-- The utility-configuration fields read by the routing pipeline
(`src/models/utility_config.py`); `mailboxes` embeds
`subscriptions.get('mailboxes', [])`. -/
structure UtilityConfig where
  id : String
  name : String
  enabled : Bool
  mailboxes : List MailboxSub
  pre_filters : PreFilters
  enrich_employee_data : Bool

/-! ### Rule matcher (`src/routing/rule_matcher.py`)

Python exceptions thrown while matching (an invalid regex in a legacy
`subject`/`body` filter is the only escaping source: `_apply_operator`
swallows everything under its blanket `except`) propagate out of
`find_matching_utilities`; such raising runs are modelled as `none`. -/

/-- The operator names `_apply_operator` recognises, in source order. -/
def known_operators : List String :=
  ["equals", "not_equals", "contains", "not_contains", "starts_with",
   "ends_with", "regex", "in", "not_in", "greater_than", "less_than",
   "greater_than_or_equal", "less_than_or_equal", "between",
   "is_empty", "is_not_empty"]

/-- `v.lower() if isinstance(v, str) else v`. -/
def lowerIfStr : PyValue → PyValue
  | .str s => .str (pyLower s)
  | v => v

/-- `RuleMatcher._get_field_value`: the email field named by a condition,
`PyValue.none` for an absent or unknown field name (`dict.get`). -/
def get_field_value (e : EmailMetadata) (field : Option String) : PyValue :=
  match field with
  | some "from_address" => .str e.from_address
  | some "from_name" => .str e.from_name
  | some "subject" => .str e.subject
  | some "body_preview" => .str e.body_preview
  | some "body_content" => .str e.body_content
  | some "has_attachments" => .bool e.has_attachments
  | some "attachment_count" => .num e.attachment_metadata.length
  | some "folder" => .str e.folder
  | some "direction" => .str e.direction
  | some "to_recipients" => .list (e.to_recipients.map (fun r => .str r.address))
  | some "cc_recipients" => .list (e.cc_recipients.map (fun r => .str r.address))
  | some "bcc_recipients" => .list (e.bcc_recipients.map (fun r => .str r.address))
  | some "attachment_names" => .list (e.attachment_metadata.map (fun a => .str a.name))
  | some "mailbox" => .str e.mailbox
  | _ => .none

/-- `RuleMatcher._apply_operator`.  A `None` field value becomes `""`;
when the field value is a string and matching is case-insensitive, both
sides are lowercased; then the operator branch runs inside a blanket
`try`/`except` whose failures (type errors, bad numbers, index errors,
regex errors) all become `false`.  The model folds each branch's possible
exceptions into its `false` results. -/
def apply_operator (field_value0 : PyValue) (operator : Option String)
    (value : PyValue) (case_sensitive : Bool) : Bool :=
  let field_value := match field_value0 with
    | .none => .str ""
    | v => v
  let pair := match field_value with
    | .str s => if !case_sensitive then (PyValue.str (pyLower s), lowerIfStr value)
                else (field_value, value)
    | _ => (field_value, value)
  let fvc := pair.1
  let vc := pair.2
  if operator = some "equals" then pyEq fvc vc
  else if operator = some "not_equals" then !pyEq fvc vc
  else if operator = some "contains" then
    match fvc with
    | .str h => match vc with
      | .str v => strContainsSub h v
      | _ => false
    | .list l => match vc with
      | .str v => l.any (fun item =>
          if case_sensitive then strContainsSub (pyStr item) v
          else strContainsSub (pyLower (pyStr item)) v)
      | _ => false
    | _ => false
  else if operator = some "not_contains" then
    match fvc with
    | .str h => match vc with
      | .str v => !strContainsSub h v
      | _ => false
    | .list l => match vc with
      | .str v => !l.any (fun item =>
          if case_sensitive then strContainsSub (pyStr item) v
          else strContainsSub (pyLower (pyStr item)) v)
      | _ => l.isEmpty
    | _ => true
  else if operator = some "starts_with" then
    match fvc, vc with
    | .str h, .str v => pyStartsWith h v
    | _, _ => false
  else if operator = some "ends_with" then
    match fvc, vc with
    | .str h, .str v => pyEndsWith h v
    | _, _ => false
  else if operator = some "regex" then
    match value with
    | .str p => (reSearch (!case_sensitive) p (pyStr field_value)).getD false
    | _ => false
  else if operator = some "in" then
    match value with
    | .list l =>
      match field_value with
      | .str _ => if !case_sensitive then (l.map lowerIfStr).any (pyEq fvc)
                  else l.any (pyEq field_value)
      | _ => l.any (pyEq field_value)
    | .str vs =>
      match field_value with
      | .str f => if !case_sensitive then
                    (vs.toList.map (fun c => pyLower (String.mk [c]))).contains (pyLower f)
                  else strContainsSub vs f
      | _ => false
    | _ => false
  else if operator = some "not_in" then
    match value with
    | .list l =>
      match field_value with
      | .str _ => if !case_sensitive then !(l.map lowerIfStr).any (pyEq fvc)
                  else !l.any (pyEq field_value)
      | _ => !l.any (pyEq field_value)
    | .str vs =>
      match field_value with
      | .str f => if !case_sensitive then
                    !(vs.toList.map (fun c => pyLower (String.mk [c]))).contains (pyLower f)
                  else !strContainsSub vs f
      | _ => false
    | _ => false
  else if operator = some "greater_than" then
    match pyFloat field_value, pyFloat value with
    | some a, some b => a > b
    | _, _ => false
  else if operator = some "less_than" then
    match pyFloat field_value, pyFloat value with
    | some a, some b => a < b
    | _, _ => false
  else if operator = some "greater_than_or_equal" then
    match pyFloat field_value, pyFloat value with
    | some a, some b => a ≥ b
    | _, _ => false
  else if operator = some "less_than_or_equal" then
    match pyFloat field_value, pyFloat value with
    | some a, some b => a ≤ b
    | _, _ => false
  else if operator = some "between" then
    match value with
    | .list (v0 :: v1 :: _) =>
      match pyFloat v0, pyFloat field_value, pyFloat v1 with
      | some lo, some mid, some hi => lo ≤ mid && mid ≤ hi
      | _, _, _ => false
    | _ => false
  else if operator = some "is_empty" then
    !pyTruthy field_value || pyEq field_value (.str "") || pyEq field_value (.list [])
  else if operator = some "is_not_empty" then
    pyTruthy field_value && !pyEq field_value (.str "") && !pyEq field_value (.list [])
  else false

/-- `RuleMatcher._evaluate_condition`: apply the operator to the named
field, then apply negation. -/
def evaluate_condition (e : EmailMetadata) (c : Condition) : Bool :=
  let field_value := get_field_value e c.field
  let result := apply_operator field_value c.operator c.value c.case_sensitive
  if c.negate then !result else result

/-- `RuleMatcher._evaluate_condition_group`: an empty group is true, a
non-empty one combines its conditions by the group's `logic` (`AND`
default, unknown values log a warning and default to `AND`). -/
def evaluate_condition_group (e : EmailMetadata) (g : ConditionGroup) : Bool :=
  if g.conditions.isEmpty then true
  else
    let results := g.conditions.map (evaluate_condition e)
    let logic := g.logic.getD "AND"
    if logic = "AND" then results.all id
    else if logic = "OR" then results.any id
    else results.all id

/-- `RuleMatcher._check_mailbox`: case-SENSITIVE membership of the
email's mailbox in the rule's subscribed addresses. -/
def check_mailbox (e : EmailMetadata) (u : UtilityConfig) : Bool :=
  (u.mailboxes.map (fun m => m.address)).contains e.mailbox

/-- `RuleMatcher._matches_advanced_filters`: mailbox check, then the
condition groups combined by `group_logic` (`AND` default, unknown values
default to `AND`); no groups means match-all. -/
def matches_advanced_filters (e : EmailMetadata) (filters : PreFilters)
    (u : UtilityConfig) : Bool :=
  if !check_mailbox e u then false
  else
    let cgs := filters.condition_groups.getD []
    if cgs.isEmpty then true
    else
      let group_results := cgs.map (evaluate_condition_group e)
      let gl := filters.group_logic.getD "AND"
      if gl = "AND" then group_results.all id
      else if gl = "OR" then group_results.any id
      else group_results.all id

/-- `RuleMatcher._check_direction`: `both` (the default) always passes,
`received` requires a folder other than `Sent Items`, `sent` requires
exactly that folder, anything else passes. -/
def check_direction (e : EmailMetadata) (filters : PreFilters) : Bool :=
  let d := filters.direction.getD "both"
  if d = "both" then true
  else if d = "received" then e.folder != "Sent Items"
  else if d = "sent" then e.folder == "Sent Items"
  else true

/-- `RuleMatcher._check_subject`: keyword containment on the lowercased
subject, then a case-insensitive regex; `none` models the `re.error` a
bad pattern raises out of the matcher. -/
def check_subject (e : EmailMetadata) (o : Option KeywordFilters) : Option Bool :=
  match o with
  | Option.none => some true
  | some sf =>
    let subject := pyLower e.subject
    let containsPass :=
      match sf.contains with
      | some kws => if !kws.isEmpty then kws.any (fun kw => strContainsSub subject (pyLower kw)) else true
      | Option.none => true
    if !containsPass then some false
    else
      match sf.regex with
      | some p => if p != "" then reSearch true p e.subject else some true
      | Option.none => some true

/-- `RuleMatcher._check_body`: as `check_subject`, on `body_content`. -/
def check_body (e : EmailMetadata) (o : Option KeywordFilters) : Option Bool :=
  match o with
  | Option.none => some true
  | some bf =>
    let body := pyLower e.body_content
    let containsPass :=
      match bf.contains with
      | some kws => if !kws.isEmpty then kws.any (fun kw => strContainsSub body (pyLower kw)) else true
      | Option.none => true
    if !containsPass then some false
    else
      match bf.regex with
      | some p => if p != "" then reSearch true p e.body_content else some true
      | Option.none => some true

/-- `RuleMatcher._check_sender`: a non-empty `exact` filter returns its
comparison immediately; otherwise `in_list` then `contains` must pass. -/
def check_sender (e : EmailMetadata) (o : Option SenderFilters) : Bool :=
  match o with
  | Option.none => true
  | some sf =>
    let sender := pyLower e.from_address
    let exactVal := sf.exact.getD ""
    if exactVal != "" then sender == pyLower exactVal
    else
      let inOk := match sf.in_list with
        | some l => if !l.isEmpty then (l.map pyLower).contains sender else true
        | Option.none => true
      if !inOk then false
      else
        match sf.contains with
        | some ps => if !ps.isEmpty then ps.any (fun p => strContainsSub sender (pyLower p)) else true
        | Option.none => true

/-- `RuleMatcher._check_receiver`: `in_list` and `contains` over the
lowercased to- and cc-recipient addresses. -/
def check_receiver (e : EmailMetadata) (o : Option ReceiverFilters) : Bool :=
  match o with
  | Option.none => true
  | some rf =>
    let all_recipients :=
      e.to_recipients.map (fun r => pyLower r.address) ++
        e.cc_recipients.map (fun r => pyLower r.address)
    let inOk := match rf.in_list with
      | some l => if !l.isEmpty then all_recipients.any (fun r => (l.map pyLower).contains r) else true
      | Option.none => true
    if !inOk then false
    else
      match rf.contains with
      | some ps =>
        if !ps.isEmpty then
          all_recipients.any (fun r => ps.any (fun p => strContainsSub r (pyLower p)))
        else true
      | Option.none => true

/-- `RuleMatcher._check_attachments`: `required` demands attachments;
`filename_contains` is only consulted when the email has attachments. -/
def check_attachments (e : EmailMetadata) (o : Option AttachmentFilters) : Bool :=
  match o with
  | Option.none => true
  | some af =>
    if af.required.getD false && !e.has_attachments then false
    else
      match af.filename_contains with
      | some ps =>
        if !ps.isEmpty && e.has_attachments then
          e.attachment_metadata.any (fun att =>
            ps.any (fun p => strContainsSub (pyLower att.name) (pyLower p)))
        else true
      | Option.none => true

/-- `RuleMatcher._matches_legacy_filters`: build the seven checks
eagerly, in source order, then combine with `all` when `match_logic` is
`AND` and `any` otherwise. -/
def matches_legacy_filters (e : EmailMetadata) (filters : PreFilters)
    (u : UtilityConfig) : Option Bool := do
  let c1 := check_mailbox e u
  let c2 := check_direction e filters
  let c3 ← check_subject e filters.subject
  let c4 ← check_body e filters.body
  let c5 := check_sender e filters.sender
  let c6 := check_receiver e filters.receiver
  let c7 := check_attachments e filters.attachments
  let checks := [c1, c2, c3, c4, c5, c6, c7]
  if filters.match_logic.getD "AND" = "AND" then some (checks.all id)
  else some (checks.any id)

/-- `RuleMatcher._matches_utility`: the case-insensitive mailbox gate,
then the advanced path when the `condition_groups` key is present,
otherwise the legacy path. -/
def matches_utility (e : EmailMetadata) (u : UtilityConfig) : Option Bool :=
  let subscribed_mailboxes := u.mailboxes.map (fun mb => pyLower mb.address)
  let mailbox_match := subscribed_mailboxes.contains (pyLower e.mailbox)
  if !mailbox_match then some false
  else if u.pre_filters.condition_groups.isSome then
    some (matches_advanced_filters e u.pre_filters u)
  else matches_legacy_filters e u.pre_filters u

/-- `RuleMatcher.find_matching_utilities`: matched enabled utilities in
input order; `none` models an exception escaping the loop. -/
def find_matching_utilities (e : EmailMetadata) :
    List UtilityConfig → Option (List UtilityConfig)
  | [] => some []
  | u :: rest =>
    if !u.enabled then find_matching_utilities e rest
    else
      match matches_utility e u with
      | Option.none => Option.none
      | some m =>
        match find_matching_utilities e rest with
        | Option.none => Option.none
        | some tail => some (if m then u :: tail else tail)

/-! ### Retry handler (`src/utils/retry_handler.py`)

`RetryHandler.execute_with_retry` loops `for attempt in
range(max_retries + 1)`.  One attempt of the wrapped call either returns
a value, raises a connection/timeout error (the `aiohttp` connector and
timeout exceptions — the only retried class), or raises anything else
(notably the `raise_for_status` error a non-2xx HTTP response triggers),
which is re-raised immediately.  The model reads attempt outcomes from a
function of the attempt index and reifies the backoff sleeps as a list of
delays in seconds. -/

/-- Outcome of a single wrapped-call attempt. -/
inductive AttemptOut (α : Type) where
  | ok (v : α)
  | connErr
  | raised

/-- What `execute_with_retry` ultimately raises. -/
inductive RetryErr where
  | connection
  | nonRetryable
deriving DecidableEq, Repr

/-- Result of a full `execute_with_retry` run: the returned value or
raised error class, the number of attempts made, and the backoff sleeps
performed (in order). -/
structure RetryResult (α : Type) where
  outcome : Except RetryErr α
  attempts : Nat
  delays : List ℚ

/-- The retry loop; `remaining` counts loop iterations still allowed, so
`remaining = 0` is the loop falling off the end (`raise last_exception`).
The guard `remaining > 0` inside the connection branch is the source's
`attempt < self.max_retries`. -/
def execute_with_retry_aux {α : Type} (f : Nat → AttemptOut α) (base : ℚ) :
    Nat → Nat → List ℚ → RetryResult α
  | attempt, 0, delays => ⟨.error .connection, attempt, delays.reverse⟩
  | attempt, remaining + 1, delays =>
    match f attempt with
    | .ok v => ⟨.ok v, attempt + 1, delays.reverse⟩
    | .connErr =>
      if remaining > 0 then
        execute_with_retry_aux f base (attempt + 1) remaining (base * 2 ^ attempt :: delays)
      else ⟨.error .connection, attempt + 1, delays.reverse⟩
    | .raised => ⟨.error .nonRetryable, attempt + 1, delays.reverse⟩

/-- `RetryHandler.execute_with_retry` (constructor defaults:
`max_retries = 3`, `base_delay = 2.0`). -/
def execute_with_retry {α : Type} (max_retries : Nat) (base_delay : ℚ)
    (f : Nat → AttemptOut α) : RetryResult α :=
  execute_with_retry_aux f base_delay 0 (max_retries + 1) []

/-! ### Dispatcher (`src/routing/dispatcher.py`) -/

/-- Per-utility delivery outcome as `asyncio.gather(...,
return_exceptions=True)` reports it: a returned value or a captured
exception (`_forward_to_utility` re-raises its terminal failures). -/
inductive ForwardResult where
  | ok
  | exn
deriving DecidableEq, Repr

/-- How a completed retry run surfaces through `_forward_to_utility`:
a returned value is success, any raised error is the captured terminal
failure. -/
def forward_outcome {α : Type} (r : RetryResult α) : ForwardResult :=
  match r.outcome with
  | .ok _ => .ok
  | .error _ => .exn

/-- The success/failure tally `dispatch_to_utilities` returns. -/
structure DispatchCounts where
  success_count : Nat
  failure_count : Nat
deriving DecidableEq, Repr

/-- `Dispatcher.dispatch_to_utilities`: an empty utility list returns
early with `None` (modelled `none`); otherwise every utility is
attempted (`forward` gives each utility's terminal outcome) and the
outcomes are tallied. -/
def dispatch_to_utilities (utilities : List UtilityConfig)
    (forward : UtilityConfig → ForwardResult) : Option DispatchCounts :=
  if utilities.isEmpty then Option.none
  else
    let results := utilities.map forward
    some { success_count := results.countP (fun r => r == .ok),
           failure_count := results.countP (fun r => r == .exn) }

/-! ### Deduplication (`src/utils/deduplication.py`)

`InternetMessageDeduplicator`: an insertion-ordered map from cache key to
first-seen time with a TTL purge on every lookup — and nothing else: the
class has no size bound and no eviction besides the purge.  CPython's
randomized string `hash` is modelled by a fixed deterministic polynomial
hash; every theorem below depends only on `pyHash` mapping equal strings
to equal values. -/

/-- Deterministic stand-in for Python's `hash` on strings. -/
def pyHash (s : String) : Nat :=
  s.toList.foldl (fun h c => (h * 31 + c.toNat) % 1000000007) 7

/-- Python `s[:n]` (character slicing). -/
def pyTake (n : Nat) (s : String) : String := String.mk (s.toList.take n)

/-- The deduplicator's store: cache keys with first-seen timestamps in
insertion order (Python dicts preserve insertion order). -/
structure DedupState where
  cache : List (String × Int)

/-- `_cleanup`: drop entries with `current_time - v > ttl`. -/
def cleanup_cache (now ttl : Int) (cache : List (String × Int)) : List (String × Int) :=
  cache.filter (fun kv => !(decide (now - kv.2 > ttl)))

/-- The cache key `is_unique` builds: the message id alone when no body
content is given (or it is empty), otherwise the id combined with the
body fingerprint `len(body)` + `hash(body[:100])`. -/
def dedup_key (internet_message_id : String) (body_content : Option String) : String :=
  match body_content with
  | some b =>
    if b != "" then
      internet_message_id ++ "_" ++ toString b.length ++ "_" ++ toString (pyHash (pyTake 100 b))
    else internet_message_id
  | Option.none => internet_message_id

/-- `InternetMessageDeduplicator.is_unique` (default `ttl_seconds=300`):
an empty/missing id is reported unique without touching the store;
otherwise purge, then report duplicate if the key is present, else
insert it with the current time and report unique. -/
def is_unique (ttl : Int) (st : DedupState) (now : Int)
    (internet_message_id : String) (body_content : Option String) : Bool × DedupState :=
  if internet_message_id = "" then (true, st)
  else
    let cache := cleanup_cache now ttl st.cache
    let key := dedup_key internet_message_id body_content
    if key ∈ cache.map Prod.fst then (false, ⟨cache⟩)
    else (true, ⟨cache ++ [(key, now)]⟩)

/-! ### Subscription manager (`src/services/subscription_manager.py`)

Provider calls are reified: the remote subscription snapshot is an input
list, deletions and creations are returned as lists.  Expiration
timestamps are modelled as integers (the code only compares the parsed
datetimes).  The Python `needed_subscriptions` set is modelled as a
first-occurrence-ordered duplicate-free list: only its membership and
cardinality are consumed. -/

/-- A remote subscription as `list_subscriptions` returns it. -/
structure GraphSub where
  id : String
  resource : String
  expiration : Int
deriving DecidableEq, Repr

/-- Python `s.split(sep)` for a one-character separator. -/
def pySplitAux (sep : Char) : List Char → List Char → List String
  | [], acc => [String.mk acc.reverse]
  | c :: t, acc =>
    if c = sep then String.mk acc.reverse :: pySplitAux sep t []
    else pySplitAux sep t (c :: acc)

/-- Python `s.split(sep)` for a one-character separator. -/
def pySplit (s : String) (sep : Char) : List String := pySplitAux sep s.toList []

/-- `SubscriptionManager._parse_resource`: mailbox and folder from a
resource path, `none` for the `(None, None)` fall-through. -/
def parse_resource (resource : String) : Option (String × String) :=
  let parts := pySplit resource '/'
  if parts.length ≥ 3 then
    let mailbox := parts.getD 1 ""
    if "mailFolders" ∈ parts then
      let folder_idx := parts.indexOf "mailFolders" + 1
      if folder_idx < parts.length then some (mailbox, parts.getD folder_idx "")
      else Option.none
    else some (mailbox, "Inbox")
  else Option.none

/-- The `(mailbox, folder)` pairs needed by the enabled utilities
(`ensure_all_subscriptions` lines 146-158), as a duplicate-free list. -/
def collect_needed (utilities : List UtilityConfig) : List (String × String) :=
  utilities.foldl (fun acc u =>
    if !u.enabled then acc
    else
      u.mailboxes.foldl (fun acc mb =>
        (mb.folders.getD ["Inbox"]).foldl (fun acc folder =>
          if (mb.address, folder) ∈ acc then acc else acc ++ [(mb.address, folder)]) acc) acc) []

/-- The `f-string` key `mailbox:folder` used throughout the manager. -/
def subscription_key (mailbox folder : String) : String := mailbox ++ ":" ++ folder

/-- Append a subscription to its key's group, preserving first-occurrence
group order and intra-group order (Python `defaultdict` + `append`). -/
def add_to_groups (groups : List (String × List GraphSub)) (key : String)
    (sub : GraphSub) : List (String × List GraphSub) :=
  match groups with
  | [] => [(key, [sub])]
  | (k, subs) :: rest =>
    if k = key then (k, subs ++ [sub]) :: rest
    else (k, subs) :: add_to_groups rest key sub

/-- Group the remote subscriptions by parsed `mailbox:folder` key
(`cleanup_duplicate_subscriptions` lines 221-230); unparsable resources
are skipped. -/
def group_by_key (subs : List GraphSub) : List (String × List GraphSub) :=
  subs.foldl (fun groups sub =>
    match parse_resource sub.resource with
    | some (mb, fl) => add_to_groups groups (subscription_key mb fl) sub
    | Option.none => groups) []

/-- Order with the latest expiration first, as the manager's
`sorted(..., key=expirationDateTime, reverse=True)`. -/
def subGE (a b : GraphSub) : Prop := b.expiration ≤ a.expiration

instance : DecidableRel subGE := fun a b => inferInstanceAs (Decidable (b.expiration ≤ a.expiration))

instance : IsTotal GraphSub subGE := ⟨fun a b => le_total b.expiration a.expiration⟩

instance : IsTrans GraphSub subGE := ⟨fun _ _ _ hab hbc => le_trans hbc hab⟩

/-- The manager's descending-expiration sort. -/
def sort_desc (subs : List GraphSub) : List GraphSub := List.insertionSort subGE subs

/-- The body of the cleanup loop for one key group: delete every
registration of a no-longer-needed key; for a needed key with duplicates
keep the latest-expiring registration and delete the rest; otherwise keep
the single registration.  Returns (kept map entries, deleted ids). -/
def process_group (needed_keys : List String) (key : String)
    (subs : List GraphSub) : List (String × String) × List String :=
  if key ∉ needed_keys then ([], subs.map (fun s => s.id))
  else if subs.length > 1 then
    match sort_desc subs with
    | [] => ([], [])
    | latest :: rest => ([(key, latest.id)], rest.map (fun s => s.id))
  else
    match subs with
    | [s] => ([(key, s.id)], [])
    | _ => ([], [])

/-- `SubscriptionManager.cleanup_duplicate_subscriptions`: group, then
process every group in order.  Returns the kept `key ↦ id` map and the
deleted subscription ids. -/
def cleanup_duplicate_subscriptions (existing : List GraphSub)
    (needed : List (String × String)) : List (String × String) × List String :=
  let groups := group_by_key existing
  let needed_keys := needed.map (fun p => subscription_key p.1 p.2)
  groups.foldl (fun acc g =>
    let r := process_group needed_keys g.1 g.2
    (acc.1 ++ r.1, acc.2 ++ r.2)) ([], [])

/-- Python dict assignment `m[key] = v` on an insertion-ordered
association list. -/
def assoc_set (m : List (String × String)) (key v : String) : List (String × String) :=
  match m with
  | [] => [(key, v)]
  | (k, x) :: rest =>
    if k = key then (k, v) :: rest else (k, x) :: assoc_set rest key v

/-- `SubscriptionManager.ensure_all_subscriptions`: compute the needed
pairs; when strictly more remote subscriptions exist than needed pairs,
run the duplicate/orphan cleanup, otherwise just map the existing
subscriptions by key with no deletions; then create a subscription for
every needed key not yet mapped.  Returns (final map, deleted ids,
created keys); provider-assigned ids of created subscriptions are
modelled as `"created-" ++ key`. -/
def ensure_all_subscriptions (utilities : List UtilityConfig)
    (existing : List GraphSub) : List (String × String) × List String × List String :=
  let needed := collect_needed utilities
  let pair :=
    if existing.length > needed.length then
      cleanup_duplicate_subscriptions existing needed
    else
      (existing.foldl (fun m sub =>
        match parse_resource sub.resource with
        | some (mb, fl) => assoc_set m (subscription_key mb fl) sub.id
        | Option.none => m) [], [])
  let final := needed.foldl (fun (acc : List (String × String) × List String) p =>
    let key := subscription_key p.1 p.2
    if key ∈ acc.1.map Prod.fst then acc
    else (acc.1 ++ [(key, "created-" ++ key)], acc.2 ++ [key])) (pair.1, [])
  (final.1, pair.2, final.2)

/-! ### Pipeline coordinator (`src/api/webhook.py`, `process_single_email`)

The per-notification pipeline after a successful metadata fetch, with the
collaborator interactions reified as an event trace: the second-stage
dedup check (which passes `email.folder` as the content argument of
`is_unique`), the processing-log call, rule matching, the per-address
enrichment lookups, the attachment load, and the dispatch.  A matching
exception (`find_matching_utilities` = `none`) is caught by the
surrounding `except` and only logged. -/

/-- Observable collaborator events of one `process_single_email` run. -/
inductive PipelineStep where
  | fetched
  | dedup_checked
  | email_logged
  | matched
  | enrich_lookup (address : String)
  | attachments_loaded_step
  | dispatched
  | error_logged
deriving DecidableEq, Repr

/-- The enrichment block (webhook lines 113-139): when some matched
utility wants employee data, look up the sender (if non-empty) and each
to-recipient with a non-empty address. -/
def enrich_steps (e : EmailMetadata) (matched : List UtilityConfig) : List PipelineStep :=
  if matched.any (fun u => u.enrich_employee_data) then
    (if e.from_address != "" then [.enrich_lookup e.from_address] else []) ++
      e.to_recipients.foldl (fun acc r =>
        if r.address != "" then acc ++ [.enrich_lookup r.address] else acc) []
  else []

/-- `process_single_email` after a successful fetch: duplicate → stop;
no rule match → stop after matching, before any enrichment, attachment
load or dispatch; otherwise enrich/load as needed and dispatch. -/
def process_single_email (ttl : Int) (st : DedupState) (now : Int)
    (e : EmailMetadata) (utilities : List UtilityConfig) :
    List PipelineStep × DedupState :=
  let r := is_unique ttl st now e.internet_message_id (some e.folder)
  if !r.1 then ([.fetched, .dedup_checked], r.2)
  else
    match find_matching_utilities e utilities with
    | Option.none => ([.fetched, .dedup_checked, .email_logged, .error_logged], r.2)
    | some matched =>
      if matched.isEmpty then ([.fetched, .dedup_checked, .email_logged, .matched], r.2)
      else
        ([.fetched, .dedup_checked, .email_logged, .matched] ++
          enrich_steps e matched ++
          (if e.has_attachments && !e.attachments_loaded then [.attachments_loaded_step] else []) ++
          [.dispatched], r.2)

/-! ### Concrete fixtures used by counterexamples and witnesses -/

/-- A minimal email with no recipients or attachments. -/
def fixEmail : EmailMetadata :=
  { message_id := "m1", internet_message_id := "<im1@x>", subject := "hello",
    body_preview := "", body_content := "body", from_address := "a@x.com",
    from_name := "A", to_recipients := [], cc_recipients := [], bcc_recipients := [],
    has_attachments := false, attachment_metadata := [], attachments := [],
    mailbox := "User@Example.com", folder := "Inbox" }

/-- A `pre_filters` dict with no keys: legacy format, every check vacuous. -/
def emptyPreFilters : PreFilters :=
  { condition_groups := Option.none, group_logic := Option.none,
    match_logic := Option.none, direction := Option.none,
    subject := Option.none, body := Option.none, sender := Option.none,
    receiver := Option.none, attachments := Option.none }

/-- An enabled utility subscribed to `user@example.com` with empty legacy
filters. -/
def fixUtility : UtilityConfig :=
  { id := "u1", name := "U1", enabled := true,
    mailboxes := [{ address := "user@example.com", folders := Option.none }],
    pre_filters := emptyPreFilters, enrich_employee_data := false }

/-- C9: the condition evaluator satisfies the operator table:
case-insensitive `contains` finds `world` in `Hello World`; case-sensitive
`equals` distinguishes `A` from `a`; `between` is inclusive at both ends
(true at 5, 1 and 10 against `[1, 10]`, false at 11); `is_empty` accepts
the empty list; `regex` finds a digit run in `abc123`. -/
theorem C9_operator_table :
    apply_operator (.str "Hello World") (some "contains") (.str "world") false = true ∧
    apply_operator (.str "A") (some "equals") (.str "a") true = false ∧
    apply_operator (.num 5) (some "between") (.list [.num 1, .num 10]) false = true ∧
    apply_operator (.num 1) (some "between") (.list [.num 1, .num 10]) false = true ∧
    apply_operator (.num 10) (some "between") (.list [.num 1, .num 10]) false = true ∧
    apply_operator (.num 11) (some "between") (.list [.num 1, .num 10]) false = false ∧
    apply_operator (.list []) (some "is_empty") PyValue.none false = true ∧
    apply_operator (.str "abc123") (some "regex") (.str "\\d+") false = true := by
  refine ⟨?_, ?_, ?_, ?_, ?_, ?_, ?_, ?_⟩ <;> decide

/-- C7 (counterexample): the claim says a condition with an unknown
operator evaluates to non-match whatever its negate flag; but `bogus` is
not a known operator and a negated `bogus` condition evaluates to a
match, because `_evaluate_condition` applies `negate` to the unknown
operator's default `False`. -/
theorem C7_counterexample :
    (some "bogus" : Option String) ∉ known_operators.map some ∧
    evaluate_condition fixEmail
      { field := some "subject", operator := some "bogus",
        value := .str "x", negate := true, case_sensitive := false } = true := by
  exact ⟨by decide, by decide⟩

/-- C7 (amended): a condition whose operator is outside the fixed
operator set never raises and its operator application yields false,
regardless of field, comparison value and case flag; the condition as a
whole therefore evaluates to its `negate` flag — non-match when `negate`
is false, match when `negate` is true. -/
theorem C7_unknown_operator_amended (e : EmailMetadata) (c : Condition)
    (h : c.operator ∉ known_operators.map some) :
    apply_operator (get_field_value e c.field) c.operator c.value c.case_sensitive = false ∧
    evaluate_condition e c = c.negate := by
  simp only [known_operators, List.map, List.mem_cons, List.not_mem_nil, or_false,
    not_or] at h
  obtain ⟨h1, h2, h3, h4, h5, h6, h7, h8, h9, h10, h11, h12, h13, h14, h15, h16⟩ := h
  have hop : apply_operator (get_field_value e c.field) c.operator c.value
      c.case_sensitive = false := by
    unfold apply_operator
    simp only [if_neg h1, if_neg h2, if_neg h3, if_neg h4, if_neg h5, if_neg h6,
      if_neg h7, if_neg h8, if_neg h9, if_neg h10, if_neg h11, if_neg h12,
      if_neg h13, if_neg h14, if_neg h15, if_neg h16]
  refine ⟨hop, ?_⟩
  have hev : evaluate_condition e c =
      if c.negate then
        !(apply_operator (get_field_value e c.field) c.operator c.value c.case_sensitive)
      else apply_operator (get_field_value e c.field) c.operator c.value c.case_sensitive := rfl
  rw [hev, hop]
  cases c.negate <;> rfl

/-- C7 (witness): the amended theorem at a concrete unnegated `bogus`
condition. -/
theorem C7_witness :
    apply_operator (get_field_value fixEmail (some "subject")) (some "bogus")
      (.str "x") false = false ∧
    evaluate_condition fixEmail
      { field := some "subject", operator := some "bogus",
        value := .str "x", negate := false, case_sensitive := false } = false := by
  have h := C7_unknown_operator_amended fixEmail
    { field := some "subject", operator := some "bogus",
      value := .str "x", negate := false, case_sensitive := false }
    (by decide)
  exact ⟨h.1, h.2⟩

/-- If the case-insensitive mailbox gate fails, `_matches_utility`
returns false before looking at any filter. -/
theorem matches_utility_gate_false (e : EmailMetadata) (u : UtilityConfig)
    (h : (u.mailboxes.map (fun mb => pyLower mb.address)).contains (pyLower e.mailbox) = false) :
    matches_utility e u = some false := by
  simp only [matches_utility]
  rw [h]
  rfl

/-- C1: the mailbox gate is mandatory — whenever an email's lowercased
mailbox is not among a rule's lowercased subscribed addresses, no result
of `find_matching_utilities` for that email ever contains the rule,
whatever the rule's filter content or format. -/
theorem C1_mailbox_gate_mandatory (e : EmailMetadata) (u : UtilityConfig)
    (hgate : (u.mailboxes.map (fun mb => pyLower mb.address)).contains (pyLower e.mailbox) = false) :
    ∀ (us res : List UtilityConfig), find_matching_utilities e us = some res → u ∉ res := by
  intro us
  induction us with
  | nil =>
    intro res h
    simp only [find_matching_utilities, Option.some.injEq] at h
    subst h
    simp
  | cons u0 rest ih =>
    intro res h
    simp only [find_matching_utilities] at h
    split at h
    · exact ih res h
    · split at h
      next => exact absurd h (by simp)
      next m hm =>
        split at h
        next => exact absurd h (by simp)
        next tail ht =>
          injection h with h'
          subst h'
          cases m with
          | false =>
            have hres : (if (false = true) then u0 :: tail else tail) = tail := by simp
            rw [hres]
            exact ih tail ht
          | true =>
            have hres : (if (true = true) then u0 :: tail else tail) = u0 :: tail := by simp
            rw [hres]
            intro hmem
            rcases List.mem_cons.mp hmem with heq | htail
            · have hg0 : (u0.mailboxes.map (fun mb => pyLower mb.address)).contains
                  (pyLower e.mailbox) = false := heq ▸ hgate
              rw [matches_utility_gate_false e u0 hg0] at hm
              exact absurd hm (by simp)
            · exact ih tail ht htail


/-- C1 (witness): the theorem at a concrete email whose mailbox
(`User@Example.com` vs a subscription for `other@example.com`) fails the
gate, with a singleton utility list that matches nothing. -/
theorem C1_witness :
    find_matching_utilities
      { fixEmail with mailbox := "nobody@nowhere.org" } [fixUtility] = some [] ∧
    fixUtility ∉ ([] : List UtilityConfig) :=
  ⟨rfl, C1_mailbox_gate_mandatory
    { fixEmail with mailbox := "nobody@nowhere.org" } fixUtility (by decide)
    [fixUtility] [] rfl⟩

/-- C2 (counterexample): an email whose mailbox matches a subscribed
address only case-insensitively passes the mailbox gate; the rule is in
legacy format with `AND` logic and all six legacy checks (direction,
subject, body, sender, receiver, attachments) are vacuously true, yet the
rule does not match, because `_matches_legacy_filters` also conjoins the
case-SENSITIVE `_check_mailbox`, which fails here. -/
theorem C2_counterexample :
    (fixUtility.mailboxes.map (fun mb => pyLower mb.address)).contains
      (pyLower fixEmail.mailbox) = true ∧
    fixUtility.pre_filters.condition_groups = Option.none ∧
    fixUtility.pre_filters.match_logic.getD "AND" = "AND" ∧
    check_direction fixEmail fixUtility.pre_filters = true ∧
    check_subject fixEmail fixUtility.pre_filters.subject = some true ∧
    check_body fixEmail fixUtility.pre_filters.body = some true ∧
    check_sender fixEmail fixUtility.pre_filters.sender = true ∧
    check_receiver fixEmail fixUtility.pre_filters.receiver = true ∧
    check_attachments fixEmail fixUtility.pre_filters.attachments = true ∧
    matches_utility fixEmail fixUtility = some false := by
  refine ⟨?_, ?_, ?_, ?_, ?_, ?_, ?_, ?_, ?_, ?_⟩ <;> rfl

/-- C2 (amended): for an email that passes the case-insensitive mailbox
gate and a legacy-format rule whose subject and body checks complete
without raising, the rule matches iff ALL of the SEVEN built checks pass
under `AND` logic — the case-sensitive `_check_mailbox` plus the six
legacy filter checks — and iff ANY of those seven passes under any other
`match_logic` value (including `OR`); a check with no configured criteria
is vacuously true. -/
theorem C2_legacy_and_or_amended (e : EmailMetadata) (u : UtilityConfig)
    (hgate : (u.mailboxes.map (fun mb => pyLower mb.address)).contains (pyLower e.mailbox) = true)
    (hleg : u.pre_filters.condition_groups = Option.none)
    (c3 c4 : Bool)
    (h3 : check_subject e u.pre_filters.subject = some c3)
    (h4 : check_body e u.pre_filters.body = some c4) :
    matches_utility e u = some (
      if u.pre_filters.match_logic.getD "AND" = "AND" then
        ([check_mailbox e u, check_direction e u.pre_filters, c3, c4,
          check_sender e u.pre_filters.sender,
          check_receiver e u.pre_filters.receiver,
          check_attachments e u.pre_filters.attachments].all id)
      else
        ([check_mailbox e u, check_direction e u.pre_filters, c3, c4,
          check_sender e u.pre_filters.sender,
          check_receiver e u.pre_filters.receiver,
          check_attachments e u.pre_filters.attachments].any id)) ∧
    check_subject e Option.none = some true ∧
    check_body e Option.none = some true ∧
    check_sender e Option.none = true ∧
    check_receiver e Option.none = true ∧
    check_attachments e Option.none = true := by
  refine ⟨?_, rfl, rfl, rfl, rfl, rfl⟩
  simp only [matches_utility, hgate, hleg, Bool.not_true, if_false,
    Option.isSome_none, matches_legacy_filters, h3, h4, Option.some_bind]
  by_cases hml : u.pre_filters.match_logic.getD "AND" = "AND" <;> simp [hml]

/-- C2 (witness): the amended theorem at a concrete exact-case email and
empty legacy filters, where all seven checks are true and the rule
matches. -/
theorem C2_witness :
    matches_utility { fixEmail with mailbox := "user@example.com" } fixUtility = some true := by
  have h := C2_legacy_and_or_amended
    { fixEmail with mailbox := "user@example.com" } fixUtility
    (by decide) rfl true true rfl rfl
  rw [h.1]
  rfl

/-- The retry loop never makes more attempts than it has iterations
left. -/
theorem execute_with_retry_aux_attempts_le {α : Type} (f : Nat → AttemptOut α)
    (b : ℚ) : ∀ (remaining attempt : Nat) (ds : List ℚ),
    (execute_with_retry_aux f b attempt remaining ds).attempts ≤ attempt + remaining := by
  intro remaining
  induction remaining with
  | zero => intro attempt ds; simp [execute_with_retry_aux]
  | succ r ih =>
    intro attempt ds
    simp only [execute_with_retry_aux]
    cases f attempt with
    | ok v => simp
    | connErr =>
      by_cases hr : r > 0
      · rw [if_pos hr]
        calc (execute_with_retry_aux f b (attempt + 1) r (b * 2 ^ attempt :: ds)).attempts
            ≤ (attempt + 1) + r := ih (attempt + 1) (b * 2 ^ attempt :: ds)
          _ ≤ attempt + (r + 1) := by omega
      · rw [if_neg hr]; simp
    | raised => simp

/-- C3: the retry policy of `execute_with_retry` with its production
ceiling (`max_retries = 3`): (1) after any run of connection failures, an
attempt that gets a response back — any raised non-connection error, in
particular the HTTP-status error of a non-2xx response — terminates the
run at exactly that attempt with the backoff sleeps `b·2^i` accrued so
far, so a first-attempt HTTP 404 fails after exactly 1 attempt; (2) a
connection failure on the first two attempts followed by success on the
third yields overall success with exactly 3 attempts and sleeps `b·2^0`,
`b·2^1`; (3) persistent connection failure exhausts all 4 attempts (3
retries after the initial attempt) and raises the connection error; (4)
no run ever makes more than 4 attempts. -/
theorem C3_retry_policy {α : Type} (f : Nat → AttemptOut α) (b : ℚ) (v : α) :
    (∀ k, k ≤ 3 → (∀ i, i < k → f i = .connErr) → f k = .raised →
      execute_with_retry 3 b f =
        ⟨.error .nonRetryable, k + 1, (List.range k).map (fun i => b * 2 ^ i)⟩) ∧
    (f 0 = .connErr → f 1 = .connErr → f 2 = .ok v →
      execute_with_retry 3 b f = ⟨.ok v, 3, [b * 2 ^ 0, b * 2 ^ 1]⟩) ∧
    ((∀ i, i ≤ 3 → f i = .connErr) →
      execute_with_retry 3 b f =
        ⟨.error .connection, 4, [b * 2 ^ 0, b * 2 ^ 1, b * 2 ^ 2]⟩) ∧
    (execute_with_retry 3 b f).attempts ≤ 4 := by
  refine ⟨?_, ?_, ?_, ?_⟩
  · intro k hk hconn hr
    interval_cases k
    · simp [execute_with_retry, execute_with_retry_aux, hr]
    · have h0 := hconn 0 (by omega)
      simp [execute_with_retry, execute_with_retry_aux, h0, hr,
        List.range_succ, List.range_zero]
    · have h0 := hconn 0 (by omega)
      have h1 := hconn 1 (by omega)
      simp [execute_with_retry, execute_with_retry_aux, h0, h1, hr,
        List.range_succ, List.range_zero]
    · have h0 := hconn 0 (by omega)
      have h1 := hconn 1 (by omega)
      have h2 := hconn 2 (by omega)
      simp [execute_with_retry, execute_with_retry_aux, h0, h1, h2, hr,
        List.range_succ, List.range_zero]
  · intro h0 h1 h2
    simp [execute_with_retry, execute_with_retry_aux, h0, h1, h2]
  · intro hconn
    have h0 := hconn 0 (by omega)
    have h1 := hconn 1 (by omega)
    have h2 := hconn 2 (by omega)
    have h3 := hconn 3 (by omega)
    simp [execute_with_retry, execute_with_retry_aux, h0, h1, h2, h3]
  · exact execute_with_retry_aux_attempts_le f b 4 0 []

/-- C3 (witness): the theorem's success scenario at a concrete endpoint
that resets the connection twice and then succeeds, with the default base
delay 2: overall success, exactly 3 attempts, sleeps of 2 s and 4 s. -/
theorem C3_witness :
    execute_with_retry 3 2 (fun i => if i < 2 then .connErr else .ok (7 : Nat)) =
      ⟨.ok 7, 3, [2 * 2 ^ 0, 2 * 2 ^ 1]⟩ :=
  (C3_retry_policy (fun i => if i < 2 then .connErr else .ok (7 : Nat)) 2 7).2.1
    rfl rfl rfl

/-- C4 (counterexample): the claim says `dispatch_to_utilities` returns a
success/failure record for every list of matched utilities, but the
source returns early with `None` — no record — when the list is empty. -/
theorem C4_counterexample :
    dispatch_to_utilities [] (fun _ => ForwardResult.ok) = Option.none := rfl

/-- Every gathered outcome is either a success or a captured exception,
so the two tallies partition the result list. -/
theorem forward_counts_partition (l : List ForwardResult) :
    l.countP (fun r => r == .ok) + l.countP (fun r => r == .exn) = l.length := by
  induction l with
  | nil => rfl
  | cons r t ih =>
    cases r <;> simp [List.countP_cons] <;> omega

/-- C4 (amended): for every NON-EMPTY list of matched utilities,
`dispatch_to_utilities` returns a record counting exactly the successful
and the exception-captured per-utility outcomes — every utility in the
list is attempted and tallied independently, so one terminal failure
neither prevents the other deliveries nor escapes the call — and the two
counts always sum to the number of utilities; for the empty list it
returns `None` instead of a record. -/
theorem C4_dispatch_counts_amended (utilities : List UtilityConfig)
    (forward : UtilityConfig → ForwardResult) (h : utilities ≠ []) :
    dispatch_to_utilities utilities forward =
      some ⟨(utilities.map forward).countP (fun r => r == .ok),
            (utilities.map forward).countP (fun r => r == .exn)⟩ ∧
    ∀ c, dispatch_to_utilities utilities forward = some c →
      c.success_count + c.failure_count = utilities.length := by
  have hne : utilities.isEmpty = false := by
    cases utilities with
    | nil => exact absurd rfl h
    | cons a t => rfl
  constructor
  · simp [dispatch_to_utilities, hne]
  · intro c hc
    simp only [dispatch_to_utilities, hne, Bool.false_eq_true, if_false,
      Option.some.injEq] at hc
    subst hc
    simpa using forward_counts_partition (utilities.map forward)

/-- C4 (witness): the amended theorem at a two-utility list where one
delivery succeeds and the other fails terminally: counts (1, 1), summing
to 2, with no exception escaping. -/
theorem C4_witness :
    dispatch_to_utilities [fixUtility, { fixUtility with id := "u2", name := "U2" }]
      (fun u => if u.id = "u1" then .ok else .exn) = some ⟨1, 1⟩ := by
  have h := (C4_dispatch_counts_amended
    [fixUtility, { fixUtility with id := "u2", name := "U2" }]
    (fun u => if u.id = "u1" then .ok else .exn) (by simp)).1
  rw [h]
  rfl

/-- Insert a sequence of identities (no body content) into the
deduplicator at one instant, as successive `is_unique` calls. -/
def insert_ids (ttl now : Int) (ids : List String) (st : DedupState) : DedupState :=
  ids.foldl (fun s i => (is_unique ttl s now i Option.none).2) st

/-- The TTL purge at the insertion instant keeps every entry inserted at
that instant. -/
theorem cleanup_cache_all_zero (ttl : Int) (httl : 0 ≤ ttl) (l : List String) :
    cleanup_cache 0 ttl (l.map (fun i => (i, (0 : Int)))) = l.map (fun i => (i, 0)) := by
  apply List.filter_eq_self.mpr
  intro kv hkv
  rcases List.mem_map.mp hkv with ⟨i, _, rfl⟩
  have hlt : ¬((0 : Int) - 0 > ttl) := by omega
  simp [hlt]
  omega

/-- Inserting fresh, non-empty identities at instant 0 appends them to
the store one by one: nothing is ever evicted. -/
theorem insert_ids_cache (ttl : Int) (httl : 0 ≤ ttl) :
    ∀ (ids done : List String), (done ++ ids).Nodup → (∀ i ∈ ids, i ≠ "") →
    insert_ids ttl 0 ids ⟨done.map (fun i => (i, 0))⟩ =
      ⟨(done ++ ids).map (fun i => (i, 0))⟩ := by
  intro ids
  induction ids with
  | nil =>
    intro done _ _
    simp [insert_ids]
  | cons id rest ih =>
    intro done hnd hne
    have hid : id ≠ "" := hne id (by simp)
    have hnotin : id ∉ done := by
      intro hmem
      exact (List.disjoint_left.mp (List.nodup_append.mp hnd).2.2) hmem (by simp)
    have hstep : is_unique ttl ⟨done.map (fun i => (i, 0))⟩ 0 id Option.none =
        (true, ⟨(done ++ [id]).map (fun i => (i, 0))⟩) := by
      simp only [is_unique, if_neg hid, cleanup_cache_all_zero ttl httl done, dedup_key]
      have hm : id ∉ ((done.map fun i => (i, (0 : Int))).map Prod.fst) := by
        simpa [List.map_map, Function.comp] using hnotin
      rw [if_neg hm]
      simp
    have hrest : ((done ++ [id]) ++ rest).Nodup := by
      simpa [List.append_assoc] using hnd
    have hner : ∀ i ∈ rest, i ≠ "" := fun i hi => hne i (by simp [hi])
    calc insert_ids ttl 0 (id :: rest) ⟨done.map (fun i => (i, 0))⟩
        = insert_ids ttl 0 rest ⟨(done ++ [id]).map (fun i => (i, 0))⟩ := by
          simp only [insert_ids, List.foldl_cons, hstep]
      _ = ⟨((done ++ [id]) ++ rest).map (fun i => (i, 0))⟩ := ih (done ++ [id]) hrest hner
      _ = ⟨(done ++ id :: rest).map (fun i => (i, 0))⟩ := by
          simp [List.append_assoc]

/-- A non-empty identity already in the store (inserted at the lookup
instant, so within any non-negative TTL) reports as duplicate. -/
theorem is_unique_member_false (ttl : Int) (httl : 0 ≤ ttl)
    (ids : List String) (i : String) (hne : i ≠ "") (hi : i ∈ ids) :
    (is_unique ttl ⟨ids.map (fun j => (j, 0))⟩ 0 i Option.none).1 = false := by
  simp only [is_unique, if_neg hne, cleanup_cache_all_zero ttl httl ids, dedup_key]
  have hm : i ∈ ((ids.map fun j => (j, (0 : Int))).map Prod.fst) := by
    simpa [List.map_map, Function.comp] using hi
  rw [if_pos hm]

/-- C5 (counterexample): the claim says the store is bounded, with the
oldest entry evicted once a configured maximum (say 2) is exceeded, after
which the oldest identity reports unique again.  The deduplicator has no
such bound: after inserting 3 distinct identities at instant 0, all 3 are
still stored and the oldest still reports as a duplicate even though its
TTL (300 s, age 0) is nowhere near expiry. -/
theorem C5_counterexample :
    (insert_ids 300 0 ["idA", "idB", "idC"] ⟨[]⟩).cache.length = 3 ∧
    (is_unique 300 (insert_ids 300 0 ["idA", "idB", "idC"] ⟨[]⟩) 0 "idA"
      Option.none).1 = false := ⟨rfl, rfl⟩

/-- C5 (amended): the deduplication store is NOT bounded — insertion
never evicts anything; entries leave only through the TTL purge.  After
inserting any number of distinct non-empty identities at one instant the
store holds exactly all of them, and every one of them (the oldest
included) reports as a duplicate while its TTL is unexpired. -/
theorem C5_dedup_unbounded_amended (ids : List String)
    (hnd : ids.Nodup) (hne : ∀ i ∈ ids, i ≠ "") :
    (insert_ids 300 0 ids ⟨[]⟩).cache = ids.map (fun i => (i, 0)) ∧
    (insert_ids 300 0 ids ⟨[]⟩).cache.length = ids.length ∧
    ∀ i ∈ ids, (is_unique 300 (insert_ids 300 0 ids ⟨[]⟩) 0 i Option.none).1 = false := by
  have hmain := insert_ids_cache 300 (by omega) ids [] (by simpa using hnd) hne
  have hcache : insert_ids 300 0 ids ⟨[]⟩ = ⟨ids.map (fun i => (i, 0))⟩ := by
    simpa using hmain
  refine ⟨by rw [hcache], by rw [hcache]; simp, ?_⟩
  intro i hi
  rw [hcache]
  exact is_unique_member_false 300 (by omega) ids i (hne i hi) hi

/-- C5 (witness): the amended theorem at three concrete identities. -/
theorem C5_witness :
    (insert_ids 300 0 ["a", "b", "c"] ⟨[]⟩).cache = [("a", 0), ("b", 0), ("c", 0)] ∧
    (is_unique 300 (insert_ids 300 0 ["a", "b", "c"] ⟨[]⟩) 0 "a" Option.none).1 = false := by
  have h := C5_dedup_unbounded_amended ["a", "b", "c"] (by decide) (by decide)
  exact ⟨by simpa using h.1, h.2.2 "a" (by decide)⟩

/-- Folder name of 101 identical characters. -/
def longFolderA : String := String.mk (List.replicate 101 'A')

/-- Folder name equal to `longFolderA` on its first 100 characters but
different in the 101st. -/
def longFolderB : String := String.mk (List.replicate 100 'A' ++ ['B'])

set_option maxRecDepth 4000 in
/-- C10 (counterexample): the claim says the same internet-message id
seen in two DIFFERENT folders is always treated as two distinct events.
But the folder fingerprint hashes only the first 100 characters, so two
different folder names agreeing on length and first 100 characters
produce the same composite cache key: after the id is seen with the first
folder, the same id with the second, different folder is reported as a
duplicate. -/
theorem C10_counterexample :
    longFolderA ≠ longFolderB ∧
    (is_unique 300 ⟨[]⟩ 0 "mid" (some longFolderA)).1 = true ∧
    (is_unique 300 (is_unique 300 ⟨[]⟩ 0 "mid" (some longFolderA)).2 0 "mid"
      (some longFolderB)).1 = false := by
  refine ⟨by decide, rfl, rfl⟩

/-- C10 (amended): the second-stage duplicate check keys on the composite
of the internet-message id and a fingerprint of the folder name the
coordinator passes (its length plus the hash of its FIRST 100
characters).  The same id in two folders is treated as two distinct
events exactly when the composite keys differ — which holds for typical
distinct folder names but fails when two folders agree on length and
first 100 characters, in which case the second event is reported a
duplicate.  An email with an empty/missing internet-message id is always
reported unique and never inserted into the store. -/
theorem C10_dedup_folder_key_amended :
    (∀ (ttl now : Int) (st : DedupState) (body : Option String),
      is_unique ttl st now "" body = (true, st)) ∧
    (∀ (id f1 f2 : String) (ttl now : Int), id ≠ "" → 0 ≤ ttl →
      dedup_key id (some f1) ≠ dedup_key id (some f2) →
      (is_unique ttl (is_unique ttl ⟨[]⟩ now id (some f1)).2 now id (some f2)).1 = true) ∧
    (∀ (id f1 f2 : String) (ttl now : Int), id ≠ "" → 0 ≤ ttl →
      f1 ≠ "" → f2 ≠ "" → f1.length = f2.length → pyTake 100 f1 = pyTake 100 f2 →
      (is_unique ttl (is_unique ttl ⟨[]⟩ now id (some f1)).2 now id (some f2)).1 = false) := by
  have hfirst : ∀ (id f1 : String) (ttl now : Int), id ≠ "" →
      (is_unique ttl ⟨[]⟩ now id (some f1)).2 = ⟨[(dedup_key id (some f1), now)]⟩ := by
    intro id f1 ttl now hid
    simp [is_unique, hid, cleanup_cache]
  have hclean : ∀ (k : String) (ttl now : Int), 0 ≤ ttl →
      cleanup_cache now ttl [(k, now)] = [(k, now)] := by
    intro k ttl now httl
    apply List.filter_eq_self.mpr
    intro kv hkv
    rcases List.mem_singleton.mp hkv with rfl
    have hgt : ¬(now - now > ttl) := by omega
    simp [hgt]
    omega
  refine ⟨?_, ?_, ?_⟩
  · intro ttl now st body
    simp [is_unique]
  · intro id f1 f2 ttl now hid httl hkeys
    rw [hfirst id f1 ttl now hid]
    simp only [is_unique, if_neg hid, hclean _ ttl now httl]
    have hnot : dedup_key id (some f2) ∉ [(dedup_key id (some f1), now)].map Prod.fst := by
      simp only [List.map_cons, List.map_nil, List.mem_singleton]
      exact fun h => hkeys h.symm
    rw [if_neg hnot]
  · intro id f1 f2 ttl now hid httl hf1 hf2 hlen htake
    have hkey : dedup_key id (some f2) = dedup_key id (some f1) := by
      simp only [dedup_key, bne_iff_ne, ne_eq, hf1, hf2, not_false_eq_true, if_true,
        ite_not]
      rw [hlen, htake]
    rw [hfirst id f1 ttl now hid]
    simp only [is_unique, if_neg hid, hclean _ ttl now httl]
    have hmem : dedup_key id (some f2) ∈ [(dedup_key id (some f1), now)].map Prod.fst := by
      simp [hkey]
    rw [if_pos hmem]

/-- C10 (witness): the amended theorem's distinct-key branch at the two
standard folders of this service, whose composite keys differ — the
second sighting is reported unique — and its empty-id branch at a
concrete store. -/
theorem C10_witness :
    (is_unique 300 (is_unique 300 ⟨[]⟩ 0 "mid" (some "Inbox")).2 0 "mid"
      (some "Sent Items")).1 = true ∧
    is_unique 300 ⟨[("k", 0)]⟩ 7 "" (some "Inbox") = (true, ⟨[("k", 0)]⟩) := by
  have h := C10_dedup_folder_key_amended
  exact ⟨h.2.1 "mid" "Inbox" "Sent Items" 300 0 (by decide) (by omega) (by decide),
    h.1 300 7 ⟨[("k", 0)]⟩ (some "Inbox")⟩

/-- C8: the no-match short-circuit — for a notification whose fetched
email passes the duplicate check but matches zero utility rules, the
pipeline's trace stops right after matching: no enrichment lookup, no
attachment load, no dispatch. -/
theorem C8_no_match_short_circuit (ttl : Int) (st : DedupState) (now : Int)
    (e : EmailMetadata) (utilities : List UtilityConfig)
    (hm : find_matching_utilities e utilities = some []) :
    ((is_unique ttl st now e.internet_message_id (some e.folder)).1 = true →
      (process_single_email ttl st now e utilities).1 =
        [.fetched, .dedup_checked, .email_logged, .matched]) ∧
    (∀ a, PipelineStep.enrich_lookup a ∉ (process_single_email ttl st now e utilities).1) ∧
    PipelineStep.attachments_loaded_step ∉ (process_single_email ttl st now e utilities).1 ∧
    PipelineStep.dispatched ∉ (process_single_email ttl st now e utilities).1 := by
  by_cases hu : (is_unique ttl st now e.internet_message_id (some e.folder)).1 = true
  · have htrace : (process_single_email ttl st now e utilities).1 =
        [.fetched, .dedup_checked, .email_logged, .matched] := by
      simp [process_single_email, hu, hm]
    exact ⟨fun _ => htrace, by rw [htrace]; simp, by rw [htrace]; simp, by rw [htrace]; simp⟩
  · have hfalse : (is_unique ttl st now e.internet_message_id (some e.folder)).1 = false :=
      Bool.not_eq_true _ ▸ eq_false_of_ne_true hu
    have htrace : (process_single_email ttl st now e utilities).1 =
        [.fetched, .dedup_checked] := by
      simp [process_single_email, hfalse]
    exact ⟨fun h => absurd h hu, by rw [htrace]; simp, by rw [htrace]; simp,
      by rw [htrace]; simp⟩

/-- C8 (witness): the theorem at a concrete email, fresh deduplicator and
an empty utility list (which matches nothing). -/
theorem C8_witness :
    (process_single_email 300 ⟨[]⟩ 0 fixEmail []).1 =
      [.fetched, .dedup_checked, .email_logged, .matched] :=
  (C8_no_match_short_circuit 300 ⟨[]⟩ 0 fixEmail [] rfl).1 rfl

/-- An enabled utility watching the `Inbox` folders of two mailboxes. -/
def c6Util : UtilityConfig :=
  { id := "u1", name := "U1", enabled := true,
    mailboxes := [{ address := "m1", folders := some ["Inbox"] },
                  { address := "m2", folders := some ["Inbox"] }],
    pre_filters := emptyPreFilters, enrich_employee_data := false }

/-- Two remote registrations for the same `(m1, Inbox)` pair with
different expirations. -/
def c6Existing : List GraphSub :=
  [{ id := "subA", resource := "users/m1/messages", expiration := 100 },
   { id := "subB", resource := "users/m1/messages", expiration := 50 }]

/-- C6 (counterexample): the claim says every reconciliation pass deletes
all but the latest-expiring registration of any duplicated
`(mailbox, folder)` pair.  Here the pair `(m1, Inbox)` has two remote
registrations with different expirations, but because the pass only runs
its cleanup when strictly more registrations exist than needed pairs
(2 existing vs 2 needed), it deletes nothing and the earlier-expiring
duplicate survives. -/
theorem C6_counterexample :
    c6Existing.map (fun s => parse_resource s.resource) =
      [some ("m1", "Inbox"), some ("m1", "Inbox")] ∧
    c6Existing.map (fun s => s.expiration) = [100, 50] ∧
    (collect_needed [c6Util]).length = 2 ∧
    c6Existing.length = 2 ∧
    (ensure_all_subscriptions [c6Util] c6Existing).2.1 = [] := by
  refine ⟨rfl, rfl, rfl, rfl, rfl⟩

/-- C6 (amended): duplicate collapse happens only when the pass's count
gate fires.  (1) When the number of remote registrations does not exceed
the number of needed `(mailbox, folder)` pairs, `ensure_all_subscriptions`
deletes nothing, duplicates included.  (2) When cleanup does run, a
group whose key is no longer needed is deleted wholesale, and (3) a
needed key's group with more than one registration keeps exactly the
head of the descending-expiration order — a registration of maximal
expiration, hence with distinct expirations THE furthest-future one —
and deletes all the others. -/
theorem C6_reconciliation_collapse_amended :
    (∀ (utilities : List UtilityConfig) (existing : List GraphSub),
      ¬(existing.length > (collect_needed utilities).length) →
      (ensure_all_subscriptions utilities existing).2.1 = []) ∧
    (∀ (needed_keys : List String) (key : String) (subs : List GraphSub),
      key ∉ needed_keys →
      process_group needed_keys key subs = ([], subs.map (fun s => s.id))) ∧
    (∀ (needed_keys : List String) (key : String) (subs : List GraphSub),
      key ∈ needed_keys → 1 < subs.length →
      ∃ latest rest, sort_desc subs = latest :: rest ∧
        process_group needed_keys key subs =
          ([(key, latest.id)], rest.map (fun s => s.id)) ∧
        (∀ s ∈ subs, s.expiration ≤ latest.expiration) ∧
        (∀ s ∈ subs, s = latest ∨ s ∈ rest)) := by
  refine ⟨?_, ?_, ?_⟩
  · intro utilities existing h
    simp only [ensure_all_subscriptions, if_neg h]
  · intro nk key subs hk
    simp only [process_group, if_pos hk]
  · intro nk key subs hk hlen
    have hnn : ¬(key ∉ nk) := not_not_intro hk
    have hperm := List.perm_insertionSort subGE subs
    have hlen2 : (sort_desc subs).length = subs.length := hperm.length_eq
    obtain ⟨latest, rest, hsort⟩ : ∃ l r, sort_desc subs = l :: r := by
      cases hs : sort_desc subs with
      | nil => rw [hs] at hlen2; simp at hlen2; omega
      | cons l r => exact ⟨l, r, rfl⟩
    have hmemsort : ∀ s ∈ subs, s ∈ latest :: rest := by
      intro s hs
      rw [← hsort]
      exact (hperm.mem_iff).mpr hs
    refine ⟨latest, rest, hsort, ?_, ?_, ?_⟩
    · simp only [process_group, if_neg hnn, if_pos hlen, hsort]
    · have hsorted := List.sorted_insertionSort subGE subs
      rw [show List.insertionSort subGE subs = sort_desc subs from rfl, hsort] at hsorted
      intro s hs
      rcases List.mem_cons.mp (hmemsort s hs) with rfl | hr
      · exact le_refl _
      · exact (List.sorted_cons.mp hsorted).1 s hr
    · intro s hs
      exact List.mem_cons.mp (hmemsort s hs)

/-- Three remote registrations for one pair, expirations 50, 100, 70. -/
def c6Group : List GraphSub :=
  [{ id := "id50", resource := "users/m1/messages", expiration := 50 },
   { id := "id100", resource := "users/m1/messages", expiration := 100 },
   { id := "id70", resource := "users/m1/messages", expiration := 70 }]

/-- C6 (witness): the amended theorem's collapse branch at a concrete
3-registration group: the id with expiration 100 is kept and the other
two are deleted. -/
theorem C6_witness :
    process_group ["m1:Inbox"] "m1:Inbox" c6Group =
      ([("m1:Inbox", "id100")], ["id70", "id50"]) := by
  obtain ⟨latest, rest, hs, hp, _, _⟩ :=
    C6_reconciliation_collapse_amended.2.2 ["m1:Inbox"] "m1:Inbox" c6Group
      (by simp) (by decide)
  have hev : sort_desc c6Group =
      [{ id := "id100", resource := "users/m1/messages", expiration := 100 },
       { id := "id70", resource := "users/m1/messages", expiration := 70 },
       { id := "id50", resource := "users/m1/messages", expiration := 50 }] := by
    decide
  rw [hev] at hs
  injection hs with h1 h2
  subst h1
  subst h2
  rw [hp]
  rfl
